import Mathlib

/-!
# Verification of the spektacular process-supervision core

Shallow embedding of `src/spektacular/runner.py` and `src/spektacular/plan.py`:
the stream-JSON event model (`ClaudeEvent`), the question protocol decoder
(`detect_questions`), the process supervisor (`run_claude`, modelled as an
observable action trace over a scripted line stream), and the conversation
loop (`run_plan`, modelled over scripted turns).

Python's dynamically typed JSON values are embedded as the inductive `Json`.
The external `json.loads` library routine is a parameter
(`decode : String → Option Json`): `none` models `json.JSONDecodeError`.
Python operations that can raise (`dict`-only attribute access, item
indexing, joining non-strings) return `Except Unit _`, where `.error ()`
models an uncaught `AttributeError` / `KeyError` / `TypeError`.
-/

namespace Spektacular

/-- A decoded JSON value, as produced by `json.loads`. Numbers are modelled
as integers (the protocol carries no fractional fields that the core reads). -/
inductive Json where
  | null : Json
  | bool (b : Bool) : Json
  | num (n : Int) : Json
  | str (s : String) : Json
  | arr (elems : List Json) : Json
  | obj (fields : List (String × Json)) : Json

/-- `dict.get(key)` lookup on an already-known JSON object field list:
first binding wins (Python dict keys are unique; first-match is faithful). -/
def jlookup (fields : List (String × Json)) (key : String) : Option Json :=
  (fields.find? (fun p => p.1 == key)).map Prod.snd

/-- Python truthiness of a JSON value (`bool(x)`). -/
def Json.truthy : Json → Bool
  | .null => false
  | .bool b => b
  | .num n => n != 0
  | .str s => s != ""
  | .arr elems => !elems.isEmpty
  | .obj fields => !fields.isEmpty

/-- Python truthiness of an optional value (`None` is falsy). -/
def otruthy : Option Json → Bool
  | none => false
  | some j => j.truthy

/-- Python `v == lit` for a string literal `lit`: true exactly when `v` is
that string (Python cross-type equality with a string is `False`). -/
def Json.isStr : Json → String → Bool
  | .str t, s => t == s
  | _, _ => false

/-- `o == lit` where `o` came from a `.get` (may be `None`). -/
def optIsStr (o : Option Json) (s : String) : Bool :=
  match o with
  | some j => j.isStr s
  | none => false

/-- `x.get(key)`: succeeds only on dicts (`AttributeError` otherwise),
returning `none` when the key is absent. -/
def Json.get : Json → String → Except Unit (Option Json)
  | .obj fields, key => .ok (jlookup fields key)
  | _, _ => .error ()

/-- `x.get(key, default)`. -/
def Json.getD (j : Json) (key : String) (d : Json) : Except Unit Json :=
  (j.get key).map (fun o => o.getD d)

/-- Python iteration over a JSON value (`for x in v`): lists yield elements,
dicts yield their keys, strings yield 1-character strings; other values raise
`TypeError`. -/
def Json.iter : Json → Except Unit (List Json)
  | .arr elems => .ok elems
  | .obj fields => .ok (fields.map (fun p => Json.str p.1))
  | .str s => .ok (s.data.map (fun c => Json.str (String.mk [c])))
  | _ => .error ()

/-- Python `str.strip()` (no arguments): remove leading and trailing
whitespace. Implemented over the character list so that terms evaluate. -/
def pyStrip (s : String) : String :=
  String.mk (((s.data.dropWhile Char.isWhitespace).reverse.dropWhile Char.isWhitespace).reverse)

/-- `ClaudeEvent`: one decoded stream-JSON record. `type` is stored exactly as
`data.get("type", "unknown")` produced it (Python does not enforce the `str`
annotation), `data` is the full decoded record. -/
structure ClaudeEvent where
  type : Json
  data : Json

/-- Event construction in `run_claude`:
`ClaudeEvent(type=data.get("type", "unknown"), data=data)`, for `data` already
known to be a JSON object. -/
def mkEvent (fields : List (String × Json)) : ClaudeEvent :=
  { type := (jlookup fields "type").getD (Json.str "unknown"),
    data := Json.obj fields }

/-- `ClaudeEvent.session_id`: `self.data.get("session_id")`. -/
def ClaudeEvent.session_id (e : ClaudeEvent) : Except Unit (Option Json) :=
  e.data.get "session_id"

/-- `ClaudeEvent.is_result`: `self.type == "result"`. -/
def ClaudeEvent.is_result (e : ClaudeEvent) : Bool :=
  e.type.isStr "result"

/-- `ClaudeEvent.is_error`: `self.is_result and self.data.get("is_error", False)`,
under the truthiness with which the callers consume it. -/
def ClaudeEvent.is_error (e : ClaudeEvent) : Except Unit Bool :=
  if e.is_result then (e.data.getD "is_error" (Json.bool false)).map Json.truthy
  else .ok false

/-- `ClaudeEvent.result_text`: `self.data.get("result")` when `is_result`,
else `None`. -/
def ClaudeEvent.result_text (e : ClaudeEvent) : Except Unit (Option Json) :=
  if e.is_result then e.data.get "result" else .ok none

/-- The texts of the `"text"`-tagged blocks of an assistant message content
list: `[block["text"] for block in content if block.get("type") == "text"]`.
A non-dict block raises at `block.get`; a `"text"`-tagged block without a
`"text"` key raises `KeyError`. -/
def blockTexts : List Json → Except Unit (List Json)
  | [] => .ok []
  | Json.obj fields :: rest =>
    if optIsStr (jlookup fields "type") "text" then
      match jlookup fields "text" with
      | some t => (blockTexts rest).map (fun l => t :: l)
      | none => .error ()
    else blockTexts rest
  | _ :: _ => .error ()

/-- The string values of a list of JSON values, raising `TypeError` on the
first non-string — the check `str.join` performs on its items. -/
def strValues : List Json → Except Unit (List String)
  | [] => .ok []
  | Json.str s :: rest => (strValues rest).map (fun l => s :: l)
  | _ :: _ => .error ()

/-- `"\n".join(texts)`: raises `TypeError` unless every element is a string. -/
def joinTexts (texts : List Json) : Except Unit String :=
  (strValues texts).map (String.intercalate "\n")

/-- `ClaudeEvent.text_content` (runner.py lines 40-48). -/
def ClaudeEvent.text_content (e : ClaudeEvent) : Except Unit (Option String) :=
  if !(e.type.isStr "assistant") then .ok none
  else do
    let message ← e.data.getD "message" (Json.obj [])
    let content ← message.getD "content" (Json.arr [])
    let blocks ← content.iter
    let texts ← blockTexts blocks
    if texts.isEmpty then return none
    else return some (← joinTexts texts)

/-- `Question` dataclass: field values are stored exactly as extracted from the
payload (Python does not enforce the annotations). -/
structure Question where
  question : Json
  header : Json
  options : Json

/-- Index of the first occurrence of `pat` in `s` (first `j` with `pat` a
prefix of `drop j s`), or `none`. -/
def findIdx (pat : List Char) : List Char → Option Nat
  | [] => if pat.isPrefixOf [] then some 0 else none
  | c :: rest =>
    if pat.isPrefixOf (c :: rest) then some 0
    else (findIdx pat rest).map (fun n => n + 1)

/-- The opening delimiter of `QUESTION_PATTERN` (`<!--QUESTION:`). -/
def openDelim : List Char := "<!--QUESTION:".data

/-- The closing delimiter of `QUESTION_PATTERN` (`-->`). -/
def closeDelim : List Char := "-->".data

/-- `QUESTION_PATTERN.finditer`: all non-overlapping matches of
`<!--QUESTION:(.*?)-->` (DOTALL) left to right, returning each match's
group 1. Leftmost match wins; `.*?` is non-greedy, so each payload runs to
the first `-->` after its opening delimiter; scanning resumes after the
closing delimiter. Fuel makes the recursion structural (so terms evaluate);
`findMarkers_eq` below shows the fuel is semantically inert. -/
def findMarkersF : Nat → List Char → List (List Char)
  | 0, _ => []
  | fuel + 1, s =>
    match findIdx openDelim s with
    | none => []
    | some p =>
      let afterOpen := s.drop (p + openDelim.length)
      match findIdx closeDelim afterOpen with
      | none => []
      | some q =>
        afterOpen.take q :: findMarkersF fuel (afterOpen.drop (q + closeDelim.length))

/-- The marker scan: any fuel exceeding the text length suffices. -/
def findMarkers (s : List Char) : List (List Char) :=
  findMarkersF (s.length + 1) s

/-- The `for q in data.get("questions", [])` body: builds a `Question` per
entry until an entry misses the required `"question"` key (`KeyError`,
caught by the enclosing `except`, which abandons the rest of this payload but
keeps the entries already appended — flag `true`), or an entry is not a dict
(`TypeError` at `q["question"]`, uncaught — a crash). -/
def parseQuestions : List Json → Except Unit (List Question × Bool)
  | [] => .ok ([], false)
  | Json.obj fields :: rest =>
    match jlookup fields "question" with
    | some qv =>
      (parseQuestions rest).map (fun p =>
        (⟨qv, (jlookup fields "header").getD (Json.str ""),
          (jlookup fields "options").getD (Json.arr [])⟩ :: p.1, p.2))
    | none => .ok ([], true)
  | _ :: _ => .error ()

/-- One payload of `detect_questions`: `json.loads` failure is caught
(`JSONDecodeError` → no questions); a successfully decoded non-dict payload
crashes at `data.get` (`AttributeError`, uncaught); a non-iterable
`"questions"` value crashes (`TypeError`, uncaught). -/
def detectPayload (decode : String → Option Json) (payload : List Char) :
    Except Unit (List Question) :=
  match decode (String.mk payload) with
  | none => .ok []
  | some (Json.obj fields) =>
    match ((jlookup fields "questions").getD (Json.arr [])).iter with
    | .error _ => .error ()
    | .ok entries => (parseQuestions entries).map Prod.fst
  | some _ => .error ()

/-- `detect_questions` (runner.py lines 71-85) over the markers of a text. -/
def detectGo (decode : String → Option Json) : List (List Char) → Except Unit (List Question)
  | [] => .ok []
  | payload :: rest => do
    let qs ← detectPayload decode payload
    let qrest ← detectGo decode rest
    return qs ++ qrest

/-- `detect_questions(text)`: scan the marker grammar, decode each payload,
accumulate the questions in source order. -/
def detect_questions (decode : String → Option Json) (text : String) :
    Except Unit (List Question) :=
  detectGo decode (findMarkers text.data)

/-- One observable action of `run_claude`. -/
inductive Action where
  | logWrite (line : String) : Action
  | yieldEvent (e : ClaudeEvent) : Action
  | joinStderr : Action
  | waitProc : Action
  | raiseProcError (code : Int) (message : String) : Action
  | crash : Action

/-- The per-line loop of `run_claude` (lines 157-168): strip, skip blanks,
append-and-flush the raw line to the debug sink when configured, decode, skip
`JSONDecodeError` lines, wrap objects into events; a line decoding to a
non-dict value raises `AttributeError` at `data.get` (uncaught), aborting the
iteration. Returns the action list and whether such a crash occurred. -/
def streamActions (debug : Bool) (decode : String → Option Json) :
    List String → List Action × Bool
  | [] => ([], false)
  | l :: ls =>
    let s := pyStrip l
    if s = "" then streamActions debug decode ls
    else
      let logActs := if debug then [Action.logWrite s] else []
      match decode s with
      | none =>
        let r := streamActions debug decode ls
        (logActs ++ r.1, r.2)
      | some (Json.obj fields) =>
        let r := streamActions debug decode ls
        (logActs ++ Action.yieldEvent (mkEvent fields) :: r.1, r.2)
      | some _ => (logActs, true)

/-- The error message of the `RuntimeError` raised on a non-zero exit:
`f"Claude process exited with code {returncode}: {stderr}"`. -/
def procErrorMessage (returncode : Int) (stderr : String) : String :=
  "Claude process exited with code " ++ toString returncode ++ ": " ++ stderr

/-- The full observable trace of one `run_claude` call consumed to
exhaustion: the streaming loop, then (unless an exception escaped the loop)
`stderr_thread.join()`, `process.wait()` and the non-zero-exit check. -/
def run_claude (debug : Bool) (decode : String → Option Json)
    (lines : List String) (returncode : Int) (stderr : String) : List Action :=
  let r := streamActions debug decode lines
  if r.2 then r.1 ++ [Action.crash]
  else
    r.1 ++ [Action.joinStderr, Action.waitProc] ++
      (if returncode ≠ 0 then [Action.raiseProcError returncode (procErrorMessage returncode stderr)]
       else [])

/-- The events a trace yields, in order. -/
def yielded (acts : List Action) : List ClaudeEvent :=
  acts.filterMap (fun a => match a with
    | Action.yieldEvent e => some e
    | _ => none)

/-- The raw lines a trace appends to the debug sink, in order. -/
def loggedLines (acts : List Action) : List String :=
  acts.filterMap (fun a => match a with
    | Action.logWrite s => some s
    | _ => none)

/-- Whether an action is an event yield. -/
def isYield : Action → Bool
  | Action.yieldEvent _ => true
  | _ => false

/-- Whether an action is a debug-sink append. -/
def isLog : Action → Bool
  | Action.logWrite _ => true
  | _ => false

/-- Whether an action is the non-zero-exit `RuntimeError`. -/
def isProcError : Action → Bool
  | Action.raiseProcError _ _ => true
  | _ => false

/-- The `config.agent` fields the supervisor reads (config.py lines 53-66). -/
structure AgentConfig where
  command : String
  args : List String
  allowed_tools : List String
  dangerously_skip_permissions : Bool

/-- `run_claude`'s command construction, statement by statement:
`cmd = [command, "-p", prompt]`; `cmd.extend(args)`; if `allowed_tools` is
truthy (non-empty) extend with `["--allowedTools", ",".join(allowed_tools)]`;
if `dangerously_skip_permissions` append `"--dangerously-skip-permissions"`;
if `session_id` is truthy (present and non-empty) extend with
`["--resume", session_id]`. -/
def run_claude_cmd (cfg : AgentConfig) (prompt : String)
    (session_id : Option String) : List String :=
  let cmd := [cfg.command, "-p", prompt]
  let cmd := cmd ++ cfg.args
  let cmd :=
    if !cfg.allowed_tools.isEmpty then
      cmd ++ ["--allowedTools", String.intercalate "," cfg.allowed_tools]
    else cmd
  let cmd :=
    if cfg.dangerously_skip_permissions then cmd ++ ["--dangerously-skip-permissions"]
    else cmd
  match session_id with
  | none => cmd
  | some sid => if sid ≠ "" then cmd ++ ["--resume", sid] else cmd

/-- The command line as the claim C3 describes it (a second definition that
follows the specification's words, for comparison): allow-list flag, then the
resume flag, then the permission-bypass flag. -/
def run_claude_cmd_claimed (cfg : AgentConfig) (prompt : String)
    (session_id : Option String) : List String :=
  [cfg.command, "-p", prompt] ++ cfg.args ++
    (if !cfg.allowed_tools.isEmpty then
      ["--allowedTools", String.intercalate "," cfg.allowed_tools]
     else []) ++
    (match session_id with
     | none => []
     | some sid => ["--resume", sid]) ++
    (if cfg.dangerously_skip_permissions then ["--dangerously-skip-permissions"] else [])

/-- A fatal outcome of processing one turn's events. -/
inductive TurnErr where
  | agentError (msg : Option Json) : TurnErr
  | pyError : TurnErr

/-- Propagate an uncaught Python exception. -/
def liftPy : Except Unit α → Except TurnErr α
  | .ok a => .ok a
  | .error _ => .error TurnErr.pyError

/-- The questions one event's text contributes: `if text := event.text_content:`
only enters its body for a truthy (non-empty) text, and
`questions_found.extend(detected)` extends by `detect_questions(text)`
(plan.py guards the extend behind `if detected:`, which is the identity for
an empty list). -/
def questionsFromText (decode : String → Option Json) (tc : Option String) :
    Except Unit (List Question) :=
  match tc with
  | some t => if t ≠ "" then detect_questions decode t else .ok []
  | none => .ok []

/-- The `for event in run_claude(...)` body (plan.py lines 91-102), for one
turn: update `session_id` on any event with a truthy one, detect questions in
any truthy `text_content` and extend `questions_found`, and on a result
record either raise `RuntimeError(f"Agent error: ...")` when `is_error` or
overwrite `final_result` with the record's `result_text`. -/
def procEvents (decode : String → Option Json) :
    Option Json → Option Json → List Question → List ClaudeEvent →
    Except TurnErr (Option Json × Option Json × List Question)
  | sess, fin, qs, [] => .ok (sess, fin, qs)
  | sess, fin, qs, e :: rest => do
    let sid ← liftPy e.session_id
    let sess := if otruthy sid then sid else sess
    let tc ← liftPy e.text_content
    let detected ← liftPy (questionsFromText decode tc)
    let qs := qs ++ detected
    if e.is_result then do
      let ie ← liftPy e.is_error
      let rt ← liftPy e.result_text
      if ie then throw (TurnErr.agentError rt)
      else procEvents decode sess rt qs rest
    else procEvents decode sess fin qs rest

/-- Terminal outcome of the conversation loop. -/
inductive PlanResult where
  | completed (result : Json) : PlanResult
  | agentError (msg : Option Json) : PlanResult
  | noResult : PlanResult
  | pyError : PlanResult
  | scriptEnded : PlanResult

/-- The `while True` loop of `run_plan` plus its epilogue (plan.py lines
88-115): each iteration consumes one scripted turn, recording the
`(current_prompt, session_id)` it hands to `run_claude`; when the turn found
questions the user's joined answer becomes the next prompt, otherwise the
loop breaks and a truthy `final_result` is Completed (the plan is written)
while a falsy one raises `"Agent completed without producing a result"`.
`scriptEnded` is a modelling artifact for an exhausted script. -/
def run_plan (decode : String → Option Json) (answerFn : List Question → String) :
    List (List ClaudeEvent) → String → Option Json → Option Json →
    List (String × Option Json) × PlanResult
  | [], _, _, _ => ([], PlanResult.scriptEnded)
  | evs :: rest, prompt, sess, fin =>
    match procEvents decode sess fin [] evs with
    | .error (TurnErr.agentError m) => ([(prompt, sess)], PlanResult.agentError m)
    | .error TurnErr.pyError => ([(prompt, sess)], PlanResult.pyError)
    | .ok (sess2, fin2, qs) =>
      if qs.isEmpty then
        ([(prompt, sess)],
          match fin2 with
          | some j => if j.truthy then PlanResult.completed j else PlanResult.noResult
          | none => PlanResult.noResult)
      else
        let r := run_plan decode answerFn rest (answerFn qs) sess2 fin2
        ((prompt, sess) :: r.1, r.2)

/-- Python `int(s)` on the strings this prompt can receive: strip
whitespace, optional sign, decimal digits with single underscores between
them; anything else raises `ValueError` (`none`). (Non-ASCII digits are not
modelled.) -/
def digitsTail : List Char → Bool
  | [] => true
  | '_' :: c :: rest => c.isDigit && digitsTail rest
  | c :: rest => c.isDigit && digitsTail rest

/-- A non-empty all-digits (with legal underscores) run. -/
def pyIntDigits : List Char → Bool
  | [] => false
  | c :: rest => c.isDigit && digitsTail rest

/-- Digit-run value, skipping underscores. -/
def parseDigits (l : List Char) : Nat :=
  l.foldl (fun acc c => if c = '_' then acc else acc * 10 + (c.toNat - '0'.toNat)) 0

/-- `int(choice)`. -/
def pyInt (s : String) : Option Int :=
  match (pyStrip s).data with
  | '+' :: rest => if pyIntDigits rest then some ((parseDigits rest : Nat) : Int) else none
  | '-' :: rest => if pyIntDigits rest then some (-((parseDigits rest : Nat) : Int)) else none
  | l => if pyIntDigits l then some ((parseDigits l : Nat) : Int) else none

/-- The option-display loop `for i, opt in enumerate(q.options, 1):
click.echo(f"{i}. {opt['label']} -- ...")`: collects each option's `"label"`
value, raising on a non-dict option (`TypeError`) or a missing `"label"`
(`KeyError`). -/
def displayLabels : List Json → Except Unit (List Json)
  | [] => .ok []
  | Json.obj fields :: rest =>
    match jlookup fields "label" with
    | some l => (displayLabels rest).map (fun ls => l :: ls)
    | none => .error ()
  | _ :: _ => .error ()

/-- One iteration of the answer loop (plan.py lines 35-54). `input` is the
string the terminal prompt returned: for the options branch `click.prompt`
substitutes the default `"1"` for an empty entry; for the free-text branch
the scripted input is the accepted (non-empty) entry. A parsed choice with
`0 <= int(choice) - 1 < len(q.options)` selects that option's `"label"`
value; otherwise the raw `choice` string itself is the answer. -/
def answerQuestion (q : Question) (input : String) : Except Unit Json :=
  if q.options.truthy then do
    let opts ← q.options.iter
    let labels ← displayLabels opts
    let choice := if input = "" then "1" else input
    match pyInt choice with
    | some n =>
      let idx := n - 1
      if h : 0 ≤ idx ∧ idx.toNat < labels.length then
        .ok (labels.get ⟨idx.toNat, h.2⟩)
      else .ok (Json.str choice)
    | none => .ok (Json.str choice)
  else .ok (Json.str input)

/-- The per-question loop, consuming one scripted terminal entry per
question. -/
def collectAnswers : List Question → List String → Except Unit (List Json)
  | [], _ => .ok []
  | q :: qs, inputs => do
    let a ← answerQuestion q (inputs.headD "")
    let rest ← collectAnswers qs inputs.tail
    return a :: rest

/-- `"; ".join(answers)`: raises `TypeError` unless every answer is a
string. -/
def joinAnswers (answers : List Json) : Except Unit String :=
  (strValues answers).map (String.intercalate "; ")

/-- `prompt_user_for_answer(questions)` with scripted terminal entries. -/
def prompt_user_for_answer (qs : List Question) (inputs : List String) :
    Except Unit String := do
  joinAnswers (← collectAnswers qs inputs)

/-- The stripped non-blank lines of a stream: exactly the strings
`run_claude` hands to the decoder, in order. -/
def strippedNonblank (lines : List String) : List String :=
  (lines.map pyStrip).filter (fun s => s != "")

/-- A line the decoder either rejects or decodes to a JSON object — the
lines on which the loop body cannot raise. -/
def objOrNone (decode : String → Option Json) (s : String) : Bool :=
  match decode s with
  | none => true
  | some (Json.obj _) => true
  | some _ => false

/-- The events the claim predicts: one per stripped non-blank line that
decodes to an object, in order. -/
def eventsOf (decode : String → Option Json) (lines : List String) : List ClaudeEvent :=
  (strippedNonblank lines).filterMap (fun s =>
    match decode s with
    | some (Json.obj fields) => some (mkEvent fields)
    | _ => none)

/-- The decoder used by the counterexamples to claims C1: `json.loads`
restricted to the single line `"[]"` (a JSON array). -/
def decArr : String → Option Json := fun s =>
  if s = "[]" then some (Json.arr []) else none

/-- Concrete configuration for the C3 counterexample: both the
permission-bypass flag and a session id in play. -/
def cfgBypassResume : AgentConfig :=
  { command := "claude", args := ["--output-format", "stream-json", "--verbose"],
    allowed_tools := [], dangerously_skip_permissions := true }

/-- `pat` is a substring of `s` (via the same scanner as the marker
grammar). -/
def containsSub (pat s : String) : Bool :=
  (findIdx pat.data s.data).isSome

/-- The truthy session id an event carries, if any (`event.session_id` is
read and used only when truthy). -/
def truthySession (e : ClaudeEvent) : Option Json :=
  match e.session_id with
  | .ok (some j) => if j.truthy then some j else none
  | _ => none

/-- The `session_id` variable after a turn's events: each event carrying a
truthy session id overwrites it, so the most recently observed one wins. -/
def sessAfter (evs : List ClaudeEvent) (sess : Option Json) : Option Json :=
  evs.foldl (fun s e =>
    match truthySession e with
    | some j => some j
    | none => s) sess

/-- The value `final_result = event.result_text` stores for a result
event. -/
def resultTextVal (e : ClaudeEvent) : Option Json :=
  match e.result_text with
  | .ok v => v
  | .error _ => none

/-- The `final_result` variable after a turn's events: each result record
overwrites it (with possibly `None`), so the last result record wins. -/
def finAfter (evs : List ClaudeEvent) (fin : Option Json) : Option Json :=
  evs.foldl (fun f e => if e.is_result then resultTextVal e else f) fin

/-- Is a payload's question entry a dict? (Non-dict entries crash the
decoder with an uncaught `TypeError`.) -/
def isObjEntry : Json → Bool
  | Json.obj _ => true
  | _ => false

/-- The `Question` a well-formed entry yields, `none` when the required
`"question"` key is missing. -/
def entryQuestion (j : Json) : Option Question :=
  match j with
  | Json.obj fields =>
    (jlookup fields "question").map (fun qv =>
      ⟨qv, (jlookup fields "header").getD (Json.str ""),
        (jlookup fields "options").getD (Json.arr [])⟩)
  | _ => none

/-- The entries a payload actually keeps: the well-formed prefix up to (and
excluding) the first entry whose `"question"` key is missing — the
`KeyError` abandons the rest of the payload. -/
def keptEntries (entries : List Json) : List Question :=
  (entries.takeWhile (fun j => (entryQuestion j).isSome)).filterMap entryQuestion

/-- A payload on which the decoder cannot crash: JSON-undecodable, or a dict
whose (defaulted) `"questions"` value is a list of dicts. -/
def payloadBenign (decode : String → Option Json) (payload : List Char) : Bool :=
  match decode (String.mk payload) with
  | none => true
  | some (Json.obj fields) =>
    match (jlookup fields "questions").getD (Json.arr []) with
    | Json.arr entries => entries.all isObjEntry
    | _ => false
  | some _ => false

/-- The questions one benign payload contributes. -/
def payloadKept (decode : String → Option Json) (payload : List Char) : List Question :=
  match decode (String.mk payload) with
  | none => []
  | some (Json.obj fields) =>
    match (jlookup fields "questions").getD (Json.arr []) with
    | Json.arr entries => keptEntries entries
    | _ => []
  | some _ => []

/-- Whether a content block is tagged `"text"`. -/
def isTextBlock : Json → Bool
  | Json.obj fields => optIsStr (jlookup fields "type") "text"
  | _ => false

/-- The `"text"`-tagged blocks, in original order. -/
def textTagged (blocks : List Json) : List Json :=
  blocks.filter isTextBlock

/-- The text a `"text"`-tagged block carries. -/
def textOfBlock : Json → String
  | Json.obj fields =>
    match jlookup fields "text" with
    | some (Json.str s) => s
    | _ => ""
  | _ => ""

/-- The content list of a record's (defaulted) `message.content`. -/
def contentBlocks (data : Json) : List Json :=
  match data with
  | Json.obj fields =>
    match jlookup fields "message" with
    | some (Json.obj mf) =>
      (match jlookup mf "content" with
       | some (Json.arr bs) => bs
       | _ => [])
    | _ => []
  | _ => []

/-- A well-formed block: a dict, and if tagged `"text"` it carries a string
`"text"` value. -/
def wfBlock : Json → Bool
  | Json.obj fields =>
    if optIsStr (jlookup fields "type") "text" then
      match jlookup fields "text" with
      | some (Json.str _) => true
      | _ => false
    else true
  | _ => false

/-- Well-formed record data for `text_content`: a dict whose `message`, when
present, is a dict whose `content`, when present, is a list of well-formed
blocks. -/
def wfEventData : Json → Bool
  | Json.obj fields =>
    match jlookup fields "message" with
    | none => true
    | some (Json.obj mf) =>
      (match jlookup mf "content" with
       | none => true
       | some (Json.arr bs) => bs.all wfBlock
       | some _ => false)
    | some _ => false
  | _ => false

/-- A well-formed option: a dict carrying a string `"label"`. -/
def wfOption : Json → Bool
  | Json.obj fields =>
    match jlookup fields "label" with
    | some (Json.str _) => true
    | _ => false
  | _ => false

/-- The `"label"` value of an option dict. -/
def labelValue : Json → Json
  | Json.obj fields => (jlookup fields "label").getD Json.null
  | _ => Json.null

/-- The answer claim C10 predicts for a question with options: an input
parsing as an integer in `1..len(options)` selects that option's label; any
other input (integer out of range, or not an integer) is recorded verbatim. -/
def recordedAnswer (opts : List Json) (input : String) : Json :=
  match pyInt input with
  | some n =>
    if 1 ≤ n ∧ n ≤ (opts.length : Int) then
      labelValue (opts.getD (n - 1).toNat Json.null)
    else Json.str input
  | none => Json.str input

/-- A payload whose only question entry is valid. -/
def pOnlyGood : String := "\x7b\"questions\":[\x7b\"question\":\"q2\"\x7d]\x7d"

/-- A payload whose first entry lacks the required `"question"` key and whose
second entry is the same valid entry as in `pOnlyGood`. -/
def pBadEntry : String :=
  "\x7b\"questions\":[\x7b\"header\":\"h\"\x7d,\x7b\"question\":\"q2\"\x7d]\x7d"

/-- A complete valid question marker. -/
def markerGood : String := "<!--QUESTION:" ++ pOnlyGood ++ "-->"

/-- The fixture decoder. -/
def decFix : String → Option Json := fun s =>
  if s = pOnlyGood then
    some (Json.obj [("questions", Json.arr [Json.obj [("question", Json.str "q2")]])])
  else if s = pBadEntry then
    some (Json.obj [("questions", Json.arr
      [Json.obj [("header", Json.str "h")], Json.obj [("question", Json.str "q2")]])])
  else if s = "lineA" then
    some (Json.obj [("type", Json.str "system"), ("session_id", Json.str "s1")])
  else if s = "lineB" then
    some (Json.obj [("type", Json.str "result"), ("result", Json.str "done"),
      ("is_error", Json.bool false)])
  else if s = "notype" then
    some (Json.obj [("a", Json.num 1)])
  else none

/-- The question descriptor `pOnlyGood` carries. -/
def qGood : Question := ⟨Json.str "q2", Json.str "", Json.arr []⟩

/-- A `system` record carrying session id `"s1"`. -/
def evSysS1 : ClaudeEvent :=
  mkEvent [("type", Json.str "system"), ("session_id", Json.str "s1")]

/-- An `assistant` record carrying session id `"s2"` and a text block whose
text is a valid question marker. -/
def evAsstS2 : ClaudeEvent :=
  mkEvent [("type", Json.str "assistant"), ("session_id", Json.str "s2"),
    ("message", Json.obj [("content", Json.arr
      [Json.obj [("type", Json.str "text"), ("text", Json.str markerGood)]])])]

/-- A clean result record with result text `"done"`. -/
def evDone : ClaudeEvent :=
  mkEvent [("type", Json.str "result"), ("result", Json.str "done"),
    ("is_error", Json.bool false)]

/-- A result record with `is_error` false and result text `""`. -/
def evEmptyResult : ClaudeEvent :=
  mkEvent [("type", Json.str "result"), ("result", Json.str ""),
    ("is_error", Json.bool false)]

/-- Record data for an assistant message with two text blocks around a
tool-use block. -/
def dataHello : Json :=
  Json.obj [("message", Json.obj [("content", Json.arr
    [Json.obj [("type", Json.str "text"), ("text", Json.str "hello")],
     Json.obj [("type", Json.str "tool_use"), ("name", Json.str "Bash")],
     Json.obj [("type", Json.str "text"), ("text", Json.str "world")]])])]

/-- A question with two labelled options. -/
def qTwoOptions : Question :=
  ⟨Json.str "Which?", Json.str "H",
   Json.arr [Json.obj [("label", Json.str "A")], Json.obj [("label", Json.str "B")]]⟩

/-- A text with an undecodable marker followed by a valid one. -/
def textTwoMarkers : String := "<!--QUESTION:notjson-->x" ++ markerGood

/-! ## Theorems -/

theorem findIdx_le (pat : List Char) (hp : pat ≠ []) :
    ∀ s p, findIdx pat s = some p → p + pat.length ≤ s.length := by
  intro s
  induction s with
  | nil =>
    intro p h
    cases pat with
    | nil => exact absurd rfl hp
    | cons a as => simp [findIdx, List.isPrefixOf] at h
  | cons c rest ih =>
    intro p h
    simp only [findIdx] at h
    split at h
    · cases h
      have := List.IsPrefix.length_le ( List.isPrefixOf_iff_prefix.mp (by assumption))
      simpa using this
    · match hf : findIdx pat rest with
      | none => rw [hf] at h; exact absurd h (by simp)
      | some q =>
        rw [hf] at h
        simp only [Option.map_some'] at h
        cases h
        have := ih q hf
        simp only [List.length_cons]
        omega

theorem findMarkersF_stable :
    ∀ f1 f2 s, s.length < f1 → s.length < f2 → findMarkersF f1 s = findMarkersF f2 s := by
  intro f1
  induction f1 with
  | zero => intro f2 s h1; omega
  | succ f ih =>
    intro f2 s h1 h2
    match f2, h2 with
    | g + 1, h2 =>
      show findMarkersF (f + 1) s = findMarkersF (g + 1) s
      simp only [findMarkersF]
      match hf : findIdx openDelim s with
      | none => rfl
      | some p =>
        simp only []
        match hc : findIdx closeDelim (s.drop (p + openDelim.length)) with
        | none => rfl
        | some q =>
          simp only [List.cons.injEq, true_and]
          have hp := findIdx_le openDelim (by simp [openDelim]) s p hf
          have hq := findIdx_le closeDelim (by simp [closeDelim]) _ q hc
          rw [List.length_drop] at hq
          apply ih
          · rw [List.length_drop, List.length_drop]
            simp only [openDelim, closeDelim, List.length] at hp hq ⊢
            omega
          · rw [List.length_drop, List.length_drop]
            simp only [openDelim, closeDelim, List.length] at hp hq ⊢
            omega

/-- The clean recursion `findMarkers` satisfies, showing the fuel in
`findMarkersF` is only a termination artifact. -/
theorem findMarkers_eq (s : List Char) :
    findMarkers s =
      match findIdx openDelim s with
      | none => []
      | some p =>
        let afterOpen := s.drop (p + openDelim.length)
        match findIdx closeDelim afterOpen with
        | none => []
        | some q =>
          afterOpen.take q :: findMarkers (afterOpen.drop (q + closeDelim.length)) := by
  show findMarkersF (s.length + 1) s = _
  simp only [findMarkersF]
  match hf : findIdx openDelim s with
  | none => rfl
  | some p =>
    simp only []
    match hc : findIdx closeDelim (s.drop (p + openDelim.length)) with
    | none => rfl
    | some q =>
      simp only [List.cons.injEq, true_and]
      have hp := findIdx_le openDelim (by simp [openDelim]) s p hf
      have hq := findIdx_le closeDelim (by simp [closeDelim]) _ q hc
      rw [List.length_drop] at hq
      apply findMarkersF_stable
      · rw [List.length_drop, List.length_drop]
        simp only [openDelim, closeDelim, List.length] at hp hq ⊢
        omega
      · rw [List.length_drop, List.length_drop]
        omega

theorem yielded_append (a b : List Action) : yielded (a ++ b) = yielded a ++ yielded b :=
  List.filterMap_append a b _

theorem stream_crash_free_events (debug : Bool) (decode : String → Option Json) :
    ∀ lines, (strippedNonblank lines).all (objOrNone decode) = true →
      (streamActions debug decode lines).2 = false ∧
      yielded (streamActions debug decode lines).1 = eventsOf decode lines := by
  intro lines
  induction lines with
  | nil => intro h; exact ⟨rfl, rfl⟩
  | cons l ls ih =>
    intro h
    by_cases hs : pyStrip l = ""
    · have hsn : strippedNonblank (l :: ls) = strippedNonblank ls := by
        simp [strippedNonblank, hs]
      have ih2 := ih (by rw [hsn] at h; exact h)
      constructor
      · simp only [streamActions, hs, if_pos]
        exact ih2.1
      · simp only [streamActions, hs, if_pos]
        rw [ih2.2]
        simp [eventsOf, hsn]
    · have hsn : strippedNonblank (l :: ls) = pyStrip l :: strippedNonblank ls := by
        simp [strippedNonblank, hs]
      rw [hsn] at h
      simp only [List.all_cons, Bool.and_eq_true] at h
      have ih2 := ih h.2
      have hobj := h.1
      simp only [streamActions, hs, if_neg, ite_false]
      match hd : decode (pyStrip l) with
      | none =>
        simp only [hd]
        constructor
        · exact ih2.1
        · rw [yielded_append, ih2.2]
          have : yielded (if debug then [Action.logWrite (pyStrip l)] else []) = [] := by
            split <;> rfl
          rw [this]
          simp [eventsOf, hsn, hd]
      | some (Json.obj fields) =>
        simp only [hd]
        constructor
        · exact ih2.1
        · rw [yielded_append]
          have : yielded (if debug then [Action.logWrite (pyStrip l)] else []) = [] := by
            split <;> rfl
          rw [this]
          show yielded (Action.yieldEvent (mkEvent fields) :: _) = _
          have : yielded (Action.yieldEvent (mkEvent fields) :: (streamActions debug decode ls).1) =
              mkEvent fields :: yielded (streamActions debug decode ls).1 := rfl
          rw [this, ih2.2]
          simp [eventsOf, hsn, hd]
      | some (Json.null) => rw [objOrNone, hd] at hobj; exact absurd hobj (by simp)
      | some (Json.bool b) => rw [objOrNone, hd] at hobj; exact absurd hobj (by simp)
      | some (Json.num n) => rw [objOrNone, hd] at hobj; exact absurd hobj (by simp)
      | some (Json.str t) => rw [objOrNone, hd] at hobj; exact absurd hobj (by simp)
      | some (Json.arr es) => rw [objOrNone, hd] at hobj; exact absurd hobj (by simp)

/-- Claim C1 (amended: "decodes successfully as JSON" must read "decodes
successfully as a JSON object"): on any stream whose decodable lines all
decode to JSON objects, `run_claude` yields exactly one Event per non-blank
line that decodes, in order; blank lines and lines failing JSON decoding
contribute zero Events and never halt the iteration (no crash escapes the
loop). -/
theorem c1_stream_yields_one_event_per_decodable_line
    (debug : Bool) (decode : String → Option Json) (lines : List String)
    (rc : Int) (stderr : String)
    (h : (strippedNonblank lines).all (objOrNone decode) = true) :
    (streamActions debug decode lines).2 = false ∧
    yielded (run_claude debug decode lines rc stderr) = eventsOf decode lines := by
  obtain ⟨hc, hy⟩ := stream_crash_free_events debug decode lines h
  refine ⟨hc, ?_⟩
  rw [run_claude, hc]
  simp only [Bool.false_eq_true, if_false]
  rw [yielded_append, yielded_append, hy]
  have h1 : yielded [Action.joinStderr, Action.waitProc] = [] := rfl
  have h2 : yielded (if rc ≠ 0 then
      [Action.raiseProcError rc (procErrorMessage rc stderr)] else []) = [] := by
    split <;> rfl
  rw [h1, h2]
  simp

/-- Counterexample to claim C1 as stated: the line `"[]"` is non-blank and
decodes successfully as JSON (an array, not an object), yet the loop yields
zero Events for it — `data.get("type", "unknown")` raises `AttributeError`
on a list, which escapes the generator and aborts the iteration (crash flag
set). So "exactly one Event per non-blank line that decodes successfully as
JSON" is false, and such a line does halt the iteration. -/
theorem c1_counterexample_nonobject_json_line :
    (strippedNonblank ["[]"]).countP (fun s => (decArr s).isSome) = 1 ∧
    (yielded (streamActions false decArr ["[]"]).1).length = 0 ∧
    (streamActions false decArr ["[]"]).2 = true := by
  refine ⟨?_, ?_, ?_⟩ <;> rfl

/-- Claim C8: with a debug sink configured, the trace of the stream loop is,
line by line, the debug append-and-flush of the exact stripped raw line
handed to the decoder — including lines that then fail JSON decoding —
followed by the yield of the corresponding Event when one is produced. The
append therefore always precedes the yield, so the log reflects exactly what
was observed even if the consumer crashes after a yield. -/
theorem c8_debug_log_before_yield (decode : String → Option Json) (lines : List String)
    (h : (streamActions true decode lines).2 = false) :
    (streamActions true decode lines).1 =
      (strippedNonblank lines).flatMap (fun s =>
        Action.logWrite s :: (match decode s with
          | some (Json.obj fields) => [Action.yieldEvent (mkEvent fields)]
          | _ => [])) := by
  induction lines with
  | nil => rfl
  | cons l ls ih =>
    by_cases hs : pyStrip l = ""
    · have hsn : strippedNonblank (l :: ls) = strippedNonblank ls := by
        simp [strippedNonblank, hs]
      simp only [streamActions, hs, if_pos] at h ⊢
      rw [hsn]
      exact ih h
    · have hsn : strippedNonblank (l :: ls) = pyStrip l :: strippedNonblank ls := by
        simp [strippedNonblank, hs]
      rw [hsn]
      simp only [streamActions, hs, ite_false, if_neg]
      match hd : decode (pyStrip l) with
      | none =>
        simp only [hd] at h ⊢
        simp only [streamActions, hs, ite_false, if_neg, hd] at h
        rw [List.flatMap_cons, ih h]
        simp [hd]
      | some (Json.obj fields) =>
        simp only [hd] at h ⊢
        simp only [streamActions, hs, ite_false, if_neg, hd] at h
        rw [List.flatMap_cons, ih h]
        simp [hd]
      | some (Json.null) =>
        simp only [streamActions, hs, ite_false, if_neg, hd] at h
        exact absurd h (by decide)
      | some (Json.bool b) =>
        simp only [streamActions, hs, ite_false, if_neg, hd] at h
        exact absurd h (by decide)
      | some (Json.num n) =>
        simp only [streamActions, hs, ite_false, if_neg, hd] at h
        exact absurd h (by decide)
      | some (Json.str t) =>
        simp only [streamActions, hs, ite_false, if_neg, hd] at h
        exact absurd h (by decide)
      | some (Json.arr es) =>
        simp only [streamActions, hs, ite_false, if_neg, hd] at h
        exact absurd h (by decide)

/-- Claim C9: a line that decodes to a JSON object without a `"type"` field
is not rejected: the loop yields an Event whose kind is the literal string
`"unknown"`, with the full decoded object preserved as the Event's data. -/
theorem c9_missing_type_yields_unknown (decode : String → Option Json)
    (s : String) (fields : List (String × Json))
    (h1 : pyStrip s = s) (h2 : s ≠ "")
    (h3 : decode s = some (Json.obj fields))
    (h4 : jlookup fields "type" = none) :
    streamActions false decode [s] =
      ([Action.yieldEvent ⟨Json.str "unknown", Json.obj fields⟩], false) := by
  simp only [streamActions, h1, h2, ite_false, if_neg, h3]
  simp [mkEvent, h4]

/-- Counterexample to claim C3 as stated: with the permission-bypass flag
configured and a session id supplied, the code appends
`--dangerously-skip-permissions` BEFORE `--resume <id>` (runner.py appends
the bypass flag at lines 130-131 and the resume flag at lines 133-134),
while the claim places the resume flag before the permission-bypass flag. -/
theorem c3_counterexample_flag_order :
    run_claude_cmd cfgBypassResume "hi" (some "s1") ≠
      run_claude_cmd_claimed cfgBypassResume "hi" (some "s1") ∧
    run_claude_cmd cfgBypassResume "hi" (some "s1") =
      ["claude", "-p", "hi", "--output-format", "stream-json", "--verbose",
       "--dangerously-skip-permissions", "--resume", "s1"] := by
  constructor
  · decide
  · rfl

/-- Claim C3 (amended: the resume flag comes last, after the allow-list flag
and the permission-bypass flag, and is only added for a non-empty session
id): the command line is deterministically, for all inputs, the base
executable, `-p`, the input text, the configured fixed args, then the
conditional allow-list, permission-bypass and resume segments, in that
order. Being a pure function of its arguments, the construction is
order-stable across runs with equal inputs. -/
theorem c3_cmd_deterministic_order (cfg : AgentConfig) (prompt : String)
    (sid : Option String) :
    run_claude_cmd cfg prompt sid =
      [cfg.command, "-p", prompt] ++ cfg.args ++
        (if !cfg.allowed_tools.isEmpty then
          ["--allowedTools", String.intercalate "," cfg.allowed_tools]
         else []) ++
        (if cfg.dangerously_skip_permissions then ["--dangerously-skip-permissions"]
         else []) ++
        (match sid with
         | none => []
         | some s => if s ≠ "" then ["--resume", s] else []) := by
  cases sid <;> simp only [run_claude_cmd] <;> split_ifs <;> simp

/-- `pat` occurs in `pre ++ pat ++ suf`. -/
theorem findIdx_append_isSome (pat pre suf : List Char) :
    (findIdx pat (pre ++ (pat ++ suf))).isSome = true := by
  induction pre with
  | nil =>
    simp only [List.nil_append]
    have hpre : pat.isPrefixOf (pat ++ suf) :=
      List.isPrefixOf_iff_prefix.mpr (List.prefix_append pat suf)
    cases hps : pat ++ suf with
    | nil =>
      have hp : pat = [] := by
        cases pat with
        | nil => rfl
        | cons a as => simp at hps
      subst hp
      simp [findIdx]
    | cons c rest =>
      rw [hps] at hpre
      simp [findIdx, hpre]
  | cons c pre ih =>
    simp only [List.cons_append]
    by_cases hpre : pat.isPrefixOf (c :: (pre ++ (pat ++ suf)))
    · simp [findIdx, hpre]
    · simp only [findIdx, hpre, ite_false, if_neg]
      cases hx : findIdx pat (pre ++ (pat ++ suf)) with
      | none => rw [hx] at ih; simp at ih
      | some v => simp [hx]

/-- The stream loop itself never raises the process-exit error. -/
theorem streamActions_no_procError (debug : Bool) (decode : String → Option Json) :
    ∀ lines, ((streamActions debug decode lines).1.countP isProcError) = 0 := by
  intro lines
  induction lines with
  | nil => rfl
  | cons l ls ih =>
    by_cases hs : pyStrip l = ""
    · simp only [streamActions, hs, if_pos]
      exact ih
    · simp only [streamActions, hs, ite_false, if_neg]
      have hlog : ((if debug then [Action.logWrite (pyStrip l)] else []).countP isProcError) = 0 := by
        split <;> rfl
      match hd : decode (pyStrip l) with
      | none => simp only []; rw [List.countP_append, hlog, ih]
      | some (Json.obj fields) =>
        simp only []
        rw [List.countP_append, hlog]
        simp [List.countP_cons, isProcError, ih]
      | some (Json.null) => simpa using hlog
      | some (Json.bool b) => simpa using hlog
      | some (Json.num n) => simpa using hlog
      | some (Json.str t) => simpa using hlog
      | some (Json.arr es) => simpa using hlog

/-- Claim C5: once the stream is exhausted without an escaped exception, the
supervisor joins the stderr drain and waits for process exit, raising the
`RuntimeError` exactly when the exit code is non-zero; the error message
contains both the exit code and the full accumulated stderr text, and a zero
exit raises no process error. -/
theorem c5_nonzero_exit_raises (debug : Bool) (decode : String → Option Json)
    (lines : List String) (rc : Int) (stderr : String)
    (h : (streamActions debug decode lines).2 = false) :
    run_claude debug decode lines rc stderr =
      (streamActions debug decode lines).1 ++ [Action.joinStderr, Action.waitProc] ++
        (if rc ≠ 0 then [Action.raiseProcError rc (procErrorMessage rc stderr)] else []) ∧
    containsSub (toString rc) (procErrorMessage rc stderr) = true ∧
    containsSub stderr (procErrorMessage rc stderr) = true ∧
    (rc = 0 → (run_claude debug decode lines rc stderr).countP isProcError = 0) := by
  have hmsg : (procErrorMessage rc stderr).data =
      "Claude process exited with code ".data ++
        ((toString rc).data ++ (": ".data ++ stderr.data)) := by
    simp [procErrorMessage, String.data_append]
  refine ⟨?_, ?_, ?_, ?_⟩
  · rw [run_claude, h]
    simp
  · rw [containsSub, hmsg]
    exact findIdx_append_isSome _ _ _
  · rw [containsSub, hmsg]
    have : "Claude process exited with code ".data ++
        ((toString rc).data ++ (": ".data ++ stderr.data)) =
        ("Claude process exited with code ".data ++ (toString rc).data ++ ": ".data) ++
          (stderr.data ++ []) := by
      simp
    rw [this]
    exact findIdx_append_isSome _ _ _
  · intro hz
    subst hz
    rw [run_claude, h]
    simp only [Bool.false_eq_true, if_false, ne_eq, not_true_eq_false]
    rw [List.countP_append, List.countP_append, streamActions_no_procError]
    rfl

theorem exceptBindOk (x : α) (f : α → Except ε β) : (Except.ok x >>= f) = f x := rfl

theorem exceptBindErr (e : ε) (f : α → Except ε β) :
    ((Except.error e : Except ε α) >>= f) = Except.error e := rfl

theorem truthySession_truthy (e : ClaudeEvent) (j : Json)
    (h : truthySession e = some j) : j.truthy = true := by
  rw [truthySession] at h
  match hs : e.session_id with
  | .ok (some v) =>
    rw [hs] at h
    have h2 : (if v.truthy = true then some v else none) = some j := h
    by_cases ht : v.truthy
    · rw [if_pos ht] at h2
      cases h2
      exact ht
    · rw [if_neg ht] at h2
      exact absurd h2 (by simp)
  | .ok none => rw [hs] at h; exact absurd h (by simp)
  | .error u => rw [hs] at h; exact absurd h (by simp)

/-- Processing a turn never errors out in the state characterization: if the
loop body completes, the final `session_id` is the last truthy one observed
(or the incoming one) and the final `final_result` is the last result
record's text (or the incoming one). -/
theorem procEvents_ok_state (decode : String → Option Json) :
    ∀ evs sess fin qs out,
      procEvents decode sess fin qs evs = .ok out →
      out.1 = sessAfter evs sess ∧ out.2.1 = finAfter evs fin := by
  intro evs
  induction evs with
  | nil =>
    intro sess fin qs out h
    rw [procEvents] at h
    cases h
    exact ⟨rfl, rfl⟩
  | cons e rest ih =>
    intro sess fin qs out h
    rw [procEvents] at h
    match hsid : e.session_id with
    | .error u => rw [hsid] at h; exact absurd h (by simp [liftPy, exceptBindErr])
    | .ok sid =>
      rw [hsid] at h
      simp only [liftPy, exceptBindOk] at h
      match htc : e.text_content with
      | .error u => rw [htc] at h; exact absurd h (by simp [liftPy, exceptBindErr])
      | .ok tc =>
        rw [htc] at h
        simp only [liftPy, exceptBindOk] at h
        match hqf : questionsFromText decode tc with
        | .error u => rw [hqf] at h; exact absurd h (by simp [liftPy, exceptBindErr])
        | .ok detected =>
          rw [hqf] at h
          simp only [liftPy, exceptBindOk] at h
          have hsess : (if otruthy sid then sid else sess) =
              (match truthySession e with
               | some j => some j
               | none => sess) := by
            rw [truthySession, hsid]
            match sid with
            | none => rfl
            | some j =>
              by_cases ht : j.truthy
              · simp [otruthy, ht]
              · simp [otruthy, ht]
          by_cases hr : e.is_result
          · rw [if_pos hr] at h
            match hie : e.is_error with
            | .error u => rw [hie] at h; exact absurd h (by simp [liftPy, exceptBindErr])
            | .ok ie =>
              rw [hie] at h
              simp only [liftPy, exceptBindOk] at h
              match hrt : e.result_text with
              | .error u => rw [hrt] at h; exact absurd h (by simp [liftPy, exceptBindErr])
              | .ok rt =>
                rw [hrt] at h
                simp only [liftPy, exceptBindOk] at h
                match ie with
                | true => exact absurd h (by simp [throw, throwThe, MonadExceptOf.throw])
                | false =>
                  simp only [Bool.false_eq_true, if_false] at h
                  obtain ⟨h1, h2⟩ := ih _ _ _ _ h
                  have hcons : sessAfter (e :: rest) sess =
                      sessAfter rest (match truthySession e with
                        | some j => some j
                        | none => sess) := rfl
                  have hfcons : finAfter (e :: rest) fin =
                      finAfter rest (if e.is_result then resultTextVal e else fin) := rfl
                  refine ⟨?_, ?_⟩
                  · rw [h1, hsess, hcons]
                  · rw [h2, hfcons, if_pos hr]
                    have hv : resultTextVal e = rt := by rw [resultTextVal, hrt]
                    rw [hv]
          · rw [if_neg hr] at h
            obtain ⟨h1, h2⟩ := ih _ _ _ _ h
            have hcons : sessAfter (e :: rest) sess =
                sessAfter rest (match truthySession e with
                  | some j => some j
                  | none => sess) := rfl
            have hfcons : finAfter (e :: rest) fin =
                finAfter rest (if e.is_result then resultTextVal e else fin) := rfl
            refine ⟨?_, ?_⟩
            · rw [h1, hsess, hcons]
            · rw [h2, hfcons, if_neg hr]

/-- A truthy session id is never cleared by later events: once observed, the
variable stays truthy for the rest of the conversation. -/
theorem sessAfter_never_cleared :
    ∀ evs sess, otruthy sess = true → otruthy (sessAfter evs sess) = true := by
  intro evs
  induction evs with
  | nil => intro sess h; exact h
  | cons e rest ih =>
    intro sess h
    rw [sessAfter, List.foldl_cons]
    match ht : truthySession e with
    | some j =>
      simp only [ht]
      exact ih (some j) (by simp [otruthy, truthySession_truthy e j ht])
    | none =>
      simp only [ht]
      exact ih sess h

/-- Claim C4 (amended: the session id is not write-once — every event
carrying a truthy session id overwrites it, so the MOST RECENTLY observed one
wins; it is never cleared once truthy, and the next supervisor invocation is
given the session id the previous turn left behind): after a turn, the
session variable is `sessAfter` of the turn's events; a truthy session is
never cleared; and when questions were found, the loop's next `run_claude`
call receives exactly the turn's final session id together with the user's
joined answer as the new prompt. -/
theorem c4_session_last_observed_wins :
    (∀ (decode : String → Option Json) (evs : List ClaudeEvent)
       (sess fin : Option Json) (qs : List Question)
       (out : Option Json × Option Json × List Question),
       procEvents decode sess fin qs evs = .ok out →
       out.1 = sessAfter evs sess ∧
       (otruthy sess = true → otruthy out.1 = true)) ∧
    (∀ (decode : String → Option Json) (ansF : List Question → String)
       (evs : List ClaudeEvent) (rest : List (List ClaudeEvent))
       (p : String) (sess fin sess2 fin2 : Option Json) (qs2 : List Question),
       procEvents decode sess fin [] evs = .ok (sess2, fin2, qs2) →
       qs2 ≠ [] →
       run_plan decode ansF (evs :: rest) p sess fin =
         ((p, sess) :: (run_plan decode ansF rest (ansF qs2) sess2 fin2).1,
          (run_plan decode ansF rest (ansF qs2) sess2 fin2).2)) := by
  constructor
  · intro decode evs sess fin qs out h
    obtain ⟨h1, _⟩ := procEvents_ok_state decode evs sess fin qs out h
    refine ⟨h1, ?_⟩
    intro ht
    rw [h1]
    exact sessAfter_never_cleared evs sess ht
  · intro decode ansF evs rest p sess fin sess2 fin2 qs2 hok hne
    have hemp : qs2.isEmpty = false := by
      cases qs2 with
      | nil => exact absurd rfl hne
      | cons a l => rfl
    simp only [run_plan, hok, hemp, Bool.false_eq_true, if_false]

/-- If a turn saw no result record, `final_result` is unchanged. -/
theorem finAfter_no_result :
    ∀ evs fin, evs.filter (fun e => e.is_result) = [] → finAfter evs fin = fin := by
  intro evs
  induction evs with
  | nil => intro fin _; rfl
  | cons e rest ih =>
    intro fin h
    rw [List.filter_cons] at h
    by_cases hr : e.is_result
    · rw [if_pos (by simpa using hr)] at h
      exact absurd h (by simp)
    · rw [if_neg (by simpa using hr)] at h
      have : finAfter (e :: rest) fin =
          finAfter rest (if e.is_result then resultTextVal e else fin) := rfl
      rw [this, if_neg hr]
      exact ih fin h

/-- If a turn saw exactly one result record, `final_result` ends as that
record's text. -/
theorem finAfter_single_result :
    ∀ evs fin r, evs.filter (fun e => e.is_result) = [r] →
      finAfter evs fin = resultTextVal r := by
  intro evs
  induction evs with
  | nil => intro fin r h; exact absurd h (by simp)
  | cons e rest ih =>
    intro fin r h
    rw [List.filter_cons] at h
    have hcons : finAfter (e :: rest) fin =
        finAfter rest (if e.is_result then resultTextVal e else fin) := rfl
    by_cases hr : e.is_result
    · rw [if_pos (by simpa using hr)] at h
      have he : e = r ∧ rest.filter (fun e => e.is_result) = [] := by
        constructor
        · exact (List.cons.injEq _ _ _ _ ▸ h).1
        · exact (List.cons.injEq _ _ _ _ ▸ h).2
      rw [hcons, if_pos hr, he.1]
      exact finAfter_no_result rest _ he.2
    · rw [if_neg (by simpa using hr)] at h
      rw [hcons, if_neg hr]
      exact ih fin r h

/-- Claim C6: a turn whose stream contains exactly one result record, with
`is_error` false and a truthy (non-empty) result text, and during which no
questions were detected, terminates the loop as Completed with that record's
result text; a turn with zero events terminates it as Failed with the
`"Agent completed without producing a result"` condition. (Amended: the
result text must be truthy — a result record whose `result` is the empty
string or missing also ends in the "no result" failure, see the
counterexample.) -/
theorem c6_result_completes_empty_fails :
    (∀ (decode : String → Option Json) (ansF : List Question → String)
       (evs : List ClaudeEvent) (p : String) (sess2 fin2 : Option Json)
       (r : ClaudeEvent) (t : Json),
       procEvents decode none none [] evs = .ok (sess2, fin2, []) →
       evs.filter (fun e => e.is_result) = [r] →
       r.result_text = .ok (some t) →
       t.truthy = true →
       run_plan decode ansF [evs] p none none = ([(p, none)], PlanResult.completed t)) ∧
    (∀ (decode : String → Option Json) (ansF : List Question → String) (p : String),
       run_plan decode ansF [[]] p none none = ([(p, none)], PlanResult.noResult)) := by
  constructor
  · intro decode ansF evs p sess2 fin2 r t hok hfil hrt htr
    have hfin : fin2 = finAfter evs none :=
      (procEvents_ok_state decode evs none none [] _ hok).2
    have hval : resultTextVal r = some t := by rw [resultTextVal, hrt]
    have hfin2 : fin2 = some t := by
      rw [hfin, finAfter_single_result evs none r hfil, hval]
    rw [run_plan, hok, hfin2]
    simp [htr]
  · intro decode ansF p
    rfl

theorem parseQuestions_all_obj :
    ∀ entries, entries.all isObjEntry = true →
      ∃ b, parseQuestions entries = .ok (keptEntries entries, b) := by
  intro entries
  induction entries with
  | nil => intro h; exact ⟨false, rfl⟩
  | cons j rest ih =>
    intro h
    simp only [List.all_cons, Bool.and_eq_true] at h
    match j, h.1 with
    | Json.obj fields, _ =>
      match hq : jlookup fields "question" with
      | some qv =>
        obtain ⟨b, hb⟩ := ih h.2
        refine ⟨b, ?_⟩
        rw [parseQuestions, hq, hb]
        have hkept : keptEntries (Json.obj fields :: rest) =
            (⟨qv, (jlookup fields "header").getD (Json.str ""),
              (jlookup fields "options").getD (Json.arr [])⟩ : Question) ::
              keptEntries rest := by
          rw [keptEntries, keptEntries, List.takeWhile_cons]
          have : (entryQuestion (Json.obj fields)).isSome = true := by
            rw [entryQuestion, hq]
            rfl
          rw [if_pos this, List.filterMap_cons]
          have : entryQuestion (Json.obj fields) =
              some ⟨qv, (jlookup fields "header").getD (Json.str ""),
                (jlookup fields "options").getD (Json.arr [])⟩ := by
            rw [entryQuestion, hq]
            rfl
          rw [this]
        rw [hkept]
        rfl
      | none =>
        refine ⟨true, ?_⟩
        rw [parseQuestions, hq]
        have hkept : keptEntries (Json.obj fields :: rest) = [] := by
          rw [keptEntries, List.takeWhile_cons]
          have : (entryQuestion (Json.obj fields)).isSome = false := by
            rw [entryQuestion, hq]
            rfl
          rw [this]
          rfl
        rw [hkept]

theorem detectPayload_benign (decode : String → Option Json) (payload : List Char)
    (h : payloadBenign decode payload = true) :
    detectPayload decode payload = .ok (payloadKept decode payload) := by
  rw [payloadBenign] at h
  match hd : decode (String.mk payload) with
  | none =>
    simp only [detectPayload, payloadKept, hd]
  | some (Json.obj fields) =>
    rw [hd] at h
    have h2 : (match (jlookup fields "questions").getD (Json.arr []) with
      | Json.arr entries => entries.all isObjEntry
      | _ => false) = true := h
    match hqv : (jlookup fields "questions").getD (Json.arr []) with
    | Json.arr entries =>
      rw [hqv] at h2
      obtain ⟨b, hb⟩ := parseQuestions_all_obj entries h2
      simp only [detectPayload, payloadKept, hd, hqv, Json.iter, hb]
      rfl
    | Json.null => rw [hqv] at h2; exact Bool.noConfusion h2
    | Json.bool v => rw [hqv] at h2; exact Bool.noConfusion h2
    | Json.num v => rw [hqv] at h2; exact Bool.noConfusion h2
    | Json.str v => rw [hqv] at h2; exact Bool.noConfusion h2
    | Json.obj v => rw [hqv] at h2; exact Bool.noConfusion h2
  | some (Json.null) => rw [hd] at h; exact Bool.noConfusion (show false = true from h)
  | some (Json.bool v) => rw [hd] at h; exact Bool.noConfusion (show false = true from h)
  | some (Json.num v) => rw [hd] at h; exact Bool.noConfusion (show false = true from h)
  | some (Json.str v) => rw [hd] at h; exact Bool.noConfusion (show false = true from h)
  | some (Json.arr v) => rw [hd] at h; exact Bool.noConfusion (show false = true from h)

/-- Claim C2 (amended: a payload that fails JSON decoding is dropped
individually, and a question object missing the required `"question"` field
drops ITSELF AND ALL LATER ENTRIES OF THE SAME PAYLOAD — the `KeyError`
aborts that payload's loop — while entries before it in the same payload and
all other payloads are unaffected): over benign payloads, `detect_questions`
returns exactly the concatenation, marker by marker in source order, of each
payload's kept prefix. -/
theorem detectGo_benign (decode : String → Option Json) :
    ∀ ps, ps.all (payloadBenign decode) = true →
      detectGo decode ps = .ok (ps.flatMap (payloadKept decode)) := by
  intro ps
  induction ps with
  | nil => intro h; rfl
  | cons p rest ih =>
    intro h
    simp only [List.all_cons, Bool.and_eq_true] at h
    rw [detectGo, detectPayload_benign decode p h.1, exceptBindOk, ih h.2, exceptBindOk]
    simp only [List.flatMap_cons]
    rfl

theorem c2_bad_entry_drops_payload_tail (decode : String → Option Json) (text : String)
    (h : (findMarkers text.data).all (payloadBenign decode) = true) :
    detect_questions decode text =
      .ok ((findMarkers text.data).flatMap (payloadKept decode)) := by
  rw [detect_questions]
  exact detectGo_benign decode (findMarkers text.data) h

theorem strValues_map_str (strs : List String) :
    strValues (strs.map Json.str) = .ok strs := by
  induction strs with
  | nil => rfl
  | cons s rest ih =>
    rw [List.map_cons, strValues, ih]
    rfl

theorem blockTexts_wf :
    ∀ bs, bs.all wfBlock = true →
      blockTexts bs = .ok ((textTagged bs).map (fun b => Json.str (textOfBlock b))) := by
  intro bs
  induction bs with
  | nil => intro h; rfl
  | cons b rest ih =>
    intro h
    simp only [List.all_cons, Bool.and_eq_true] at h
    match b, h.1 with
    | Json.obj fields, hb =>
      by_cases htag : optIsStr (jlookup fields "type") "text"
      · have hb2 : (match jlookup fields "text" with
          | some (Json.str _) => true
          | _ => false) = true := by
          have : wfBlock (Json.obj fields) = true := hb
          rw [wfBlock, if_pos htag] at this
          exact this
        match htx : jlookup fields "text" with
        | some (Json.str v) =>
          rw [blockTexts, if_pos htag, htx, ih h.2]
          have h1 : textTagged (Json.obj fields :: rest) =
              Json.obj fields :: textTagged rest := by
            rw [textTagged, List.filter_cons]
            have : isTextBlock (Json.obj fields) = true := htag
            rw [if_pos (by simpa using this)]
            rfl
          rw [h1, List.map_cons]
          have h2 : textOfBlock (Json.obj fields) = v := by
            rw [textOfBlock, htx]
          rw [h2]
          rfl
        | some (Json.null) => rw [htx] at hb2; exact Bool.noConfusion hb2
        | some (Json.bool v) => rw [htx] at hb2; exact Bool.noConfusion hb2
        | some (Json.num v) => rw [htx] at hb2; exact Bool.noConfusion hb2
        | some (Json.arr v) => rw [htx] at hb2; exact Bool.noConfusion hb2
        | some (Json.obj v) => rw [htx] at hb2; exact Bool.noConfusion hb2
        | none => rw [htx] at hb2; exact Bool.noConfusion hb2
      · have htagf : optIsStr (jlookup fields "type") "text" = false := by
          simpa using htag
        rw [blockTexts, if_neg (by simp [htagf]), ih h.2]
        have h1 : textTagged (Json.obj fields :: rest) = textTagged rest := by
          rw [textTagged, List.filter_cons]
          have : isTextBlock (Json.obj fields) = false := htagf
          rw [this]
          rfl
        rw [h1]

/-- Claim C7: for well-formed record data, `text_content` is present exactly
when the record kind is `"assistant"` and the content has at least one
`"text"`-tagged block; it then equals the newline-join of exactly the
`"text"`-tagged blocks' texts in original order, and is `None` otherwise
(non-assistant records, or no text block). -/
theorem c7_text_content_join (ty data : Json) (h : wfEventData data = true) :
    ClaudeEvent.text_content ⟨ty, data⟩ =
      .ok (if ty.isStr "assistant" && !(textTagged (contentBlocks data)).isEmpty then
        some (String.intercalate "\n" ((textTagged (contentBlocks data)).map textOfBlock))
      else none) := by
  by_cases hty : ty.isStr "assistant"
  · match data, h with
    | Json.obj fields, h =>
      have h2 : (match jlookup fields "message" with
        | none => true
        | some (Json.obj mf) =>
          (match jlookup mf "content" with
           | none => true
           | some (Json.arr bs) => bs.all wfBlock
           | some _ => false)
        | some _ => false) = true := h
      match hmsg : jlookup fields "message" with
      | none =>
        simp only [ClaudeEvent.text_content, hty, Bool.not_true, Bool.false_eq_true,
          if_false, Json.getD, Json.get, hmsg, Except.map, exceptBindOk, contentBlocks]
        rfl
      | some (Json.obj mf) =>
        rw [hmsg] at h2
        have h3 : (match jlookup mf "content" with
          | none => true
          | some (Json.arr bs) => bs.all wfBlock
          | some _ => false) = true := h2
        match hc : jlookup mf "content" with
        | none =>
          simp only [ClaudeEvent.text_content, hty, Bool.not_true, Bool.false_eq_true,
            if_false, Json.getD, Json.get, hmsg, hc, Except.map, exceptBindOk,
            contentBlocks, Option.getD]
          rfl
        | some (Json.arr bs) =>
          rw [hc] at h3
          simp only [ClaudeEvent.text_content, hty, Bool.not_true, Bool.false_eq_true,
            if_false, Json.getD, Json.get, hmsg, hc, Except.map,
            exceptBindOk, Json.iter, blockTexts_wf bs h3, contentBlocks, Option.getD]
          by_cases hemp : (textTagged bs).isEmpty
          · simp only [hemp, List.map_eq_nil_iff]
            have : textTagged bs = [] := by simpa [List.isEmpty_iff] using hemp
            simp only [this, strValues, joinTexts, List.map_nil, List.isEmpty_nil]
            rfl
          · have hne : (textTagged bs).map (fun b => Json.str (textOfBlock b)) ≠ [] := by
              simp only [ne_eq, List.map_eq_nil_iff]
              simpa [List.isEmpty_iff] using hemp
            have hne2 : ((textTagged bs).map (fun b => Json.str (textOfBlock b))).isEmpty = false := by
              cases hl : (textTagged bs).map (fun b => Json.str (textOfBlock b)) with
              | nil => exact absurd hl hne
              | cons a l => rfl
            simp only [hne2, Bool.false_eq_true, if_false, joinTexts]
            have : (textTagged bs).map (fun b => Json.str (textOfBlock b)) =
                ((textTagged bs).map textOfBlock).map Json.str := by
              rw [List.map_map]
              rfl
            rw [this, strValues_map_str]
            simp [hemp, hty]
            rfl
        | some (Json.null) =>
          rw [hc] at h3; exact Bool.noConfusion (show false = true from h3)
        | some (Json.bool v) =>
          rw [hc] at h3; exact Bool.noConfusion (show false = true from h3)
        | some (Json.num v) =>
          rw [hc] at h3; exact Bool.noConfusion (show false = true from h3)
        | some (Json.str v) =>
          rw [hc] at h3; exact Bool.noConfusion (show false = true from h3)
        | some (Json.obj v) =>
          rw [hc] at h3; exact Bool.noConfusion (show false = true from h3)
      | some (Json.null) =>
        rw [hmsg] at h2; exact Bool.noConfusion (show false = true from h2)
      | some (Json.bool v) =>
        rw [hmsg] at h2; exact Bool.noConfusion (show false = true from h2)
      | some (Json.num v) =>
        rw [hmsg] at h2; exact Bool.noConfusion (show false = true from h2)
      | some (Json.str v) =>
        rw [hmsg] at h2; exact Bool.noConfusion (show false = true from h2)
      | some (Json.arr v) =>
        rw [hmsg] at h2; exact Bool.noConfusion (show false = true from h2)
  · have hty2 : ty.isStr "assistant" = false := by simpa using hty
    simp only [ClaudeEvent.text_content, hty2, Bool.not_false, if_pos, Bool.false_and,
      Bool.false_eq_true, if_false]

theorem displayLabels_wf :
    ∀ opts, opts.all wfOption = true →
      displayLabels opts = .ok (opts.map labelValue) := by
  intro opts
  induction opts with
  | nil => intro h; rfl
  | cons o rest ih =>
    intro h
    simp only [List.all_cons, Bool.and_eq_true] at h
    match o, h.1 with
    | Json.obj fields, ho =>
      have ho2 : (match jlookup fields "label" with
        | some (Json.str _) => true
        | _ => false) = true := ho
      match hl : jlookup fields "label" with
      | some (Json.str v) =>
        rw [displayLabels, hl, ih h.2]
        have : labelValue (Json.obj fields) = Json.str v := by
          rw [labelValue, hl]
          rfl
        rw [List.map_cons, this]
        rfl
      | some (Json.null) => rw [hl] at ho2; exact Bool.noConfusion ho2
      | some (Json.bool v) => rw [hl] at ho2; exact Bool.noConfusion ho2
      | some (Json.num v) => rw [hl] at ho2; exact Bool.noConfusion ho2
      | some (Json.arr v) => rw [hl] at ho2; exact Bool.noConfusion ho2
      | some (Json.obj v) => rw [hl] at ho2; exact Bool.noConfusion ho2
      | none => rw [hl] at ho2; exact Bool.noConfusion ho2

/-- Claim C10: in the console front end, for a question whose options are a
non-empty well-formed list and a non-empty typed input, the recorded answer
is the selected option's label when the input parses as an integer in
`1..len(options)`, and the raw input string itself when the integer is out
of that range or the input is not an integer; the per-question answers are
then joined with `"; "` in question order. (An empty entry is not covered
here: `click.prompt` substitutes the default `"1"` for it.) -/
theorem c10_numeric_choice_or_verbatim :
    (∀ (q : Question) (opts : List Json) (input : String),
       q.options = Json.arr opts →
       opts.all wfOption = true →
       opts ≠ [] →
       input ≠ "" →
       answerQuestion q input = .ok (recordedAnswer opts input)) ∧
    (∀ (qs : List Question) (inputs : List String) (strs : List String),
       collectAnswers qs inputs = .ok (strs.map Json.str) →
       prompt_user_for_answer qs inputs = .ok (String.intercalate "; " strs)) := by
  constructor
  · intro q opts input hopts hwf hne hinp
    have htru : q.options.truthy = true := by
      rw [hopts, Json.truthy]
      cases opts with
      | nil => exact absurd rfl hne
      | cons a l => rfl
    have hiter : q.options.iter = .ok opts := by rw [hopts, Json.iter]
    rw [answerQuestion, if_pos htru, hiter, exceptBindOk,
      displayLabels_wf opts hwf, exceptBindOk]
    simp only [hinp, ite_false, if_neg]
    rw [recordedAnswer]
    match hp : pyInt input with
    | none => rfl
    | some n =>
      show (if h : 0 ≤ n - 1 ∧ (n - 1).toNat < (List.map labelValue opts).length then
          Except.ok ((List.map labelValue opts).get ⟨(n - 1).toNat, h.2⟩)
        else Except.ok (Json.str input)) =
        Except.ok (if 1 ≤ n ∧ n ≤ (opts.length : Int) then
          labelValue (opts.getD (n - 1).toNat Json.null)
        else Json.str input)
      by_cases hin : 0 ≤ n - 1 ∧ (n - 1).toNat < (List.map labelValue opts).length
      · rw [dif_pos hin]
        have hin2 : 1 ≤ n ∧ n ≤ (opts.length : Int) := by
          obtain ⟨ha, hb⟩ := hin
          rw [List.length_map] at hb
          constructor
          · omega
          · have := (Int.toNat_lt ha).mp hb
            omega
        rw [if_pos hin2]
        have hlt : (n - 1).toNat < opts.length := by
          have := hin.2
          rwa [List.length_map] at this
        rw [List.get_eq_getElem, List.getElem_map, List.getD_eq_getElem opts Json.null hlt]
      · rw [dif_neg hin]
        have hin2 : ¬(1 ≤ n ∧ n ≤ (opts.length : Int)) := by
          intro hcon
          apply hin
          obtain ⟨ha, hb⟩ := hcon
          constructor
          · omega
          · rw [List.length_map]
            have h0 : 0 ≤ n - 1 := by omega
            exact (Int.toNat_lt h0).mpr (by omega)
        rw [if_neg hin2]
  · intro qs inputs strs hcol
    rw [prompt_user_for_answer, hcol, exceptBindOk, joinAnswers, strValues_map_str]
    rfl

/-- Counterexample to claim C2 as stated: the payload
`{"questions":[{"header":"h"},{"question":"q2"}]}` contains the valid entry
`{"question":"q2"}`, which alone yields one descriptor — but preceded by an
entry missing the required `"question"` key it yields ZERO descriptors: the
`KeyError` aborts the whole payload loop, so one bad question entry does
discard valid entries after it in the same payload. -/
theorem c2_counterexample_bad_entry_discards_valid :
    detect_questions decFix ("<!--QUESTION:" ++ pBadEntry ++ "-->") = .ok [] ∧
    detect_questions decFix ("<!--QUESTION:" ++ pOnlyGood ++ "-->") = .ok [qGood] :=
  ⟨rfl, rfl⟩

/-- Counterexample to claim C4 as stated: in a turn whose first event
carries session id `"s1"` and whose second carries `"s2"` (and a question),
the next supervisor invocation receives `"s2"` — the LAST observed id — not
the first-observed `"s1"`; the session id is replaced mid-conversation by a
later event carrying a different one. -/
theorem c4_counterexample_session_replaced :
    (run_plan decFix (fun _ => "ans") [[evSysS1, evAsstS2], [evDone]] "p" none none).1 =
      [("p", none), ("ans", some (Json.str "s2"))] ∧
    Json.str "s2" ≠ Json.str "s1" := by
  constructor
  · rfl
  · intro hcon
    injection hcon with hs
    exact absurd hs (by decide)

/-- Counterexample to claim C6 as stated: a result record with `is_error`
false and result text `""` (with no questions in the turn) does NOT complete
the conversation with that text — `if final_result:` is false for the empty
string, so the loop fails with the "no result" condition instead. -/
theorem c6_counterexample_empty_result_text :
    run_plan decFix (fun _ => "ans") [[evEmptyResult]] "p" none none =
      ([("p", none)], PlanResult.noResult) ∧
    ∀ t, PlanResult.noResult ≠ PlanResult.completed t :=
  ⟨rfl, fun _ h => PlanResult.noConfusion h⟩

/-- Witness for C1: a stream with a decodable line, a blank line, a
malformed line and a second decodable line. -/
theorem c1_witness :
    (strippedNonblank ["lineA", "", "bad", "lineB"]).all (objOrNone decFix) = true ∧
    ((streamActions false decFix ["lineA", "", "bad", "lineB"]).2 = false ∧
     yielded (run_claude false decFix ["lineA", "", "bad", "lineB"] 0 "") =
       eventsOf decFix ["lineA", "", "bad", "lineB"]) :=
  ⟨rfl, c1_stream_yields_one_event_per_decodable_line false decFix
    ["lineA", "", "bad", "lineB"] 0 "" rfl⟩

/-- Witness for C2: an undecodable marker followed by a valid marker. -/
theorem c2_witness :
    (findMarkers textTwoMarkers.data).all (payloadBenign decFix) = true ∧
    detect_questions decFix textTwoMarkers =
      .ok ((findMarkers textTwoMarkers.data).flatMap (payloadKept decFix)) :=
  ⟨rfl, c2_bad_entry_drops_payload_tail decFix textTwoMarkers rfl⟩

/-- Witness for C4: a turn observing `"s1"`, and a questioning turn whose
final session id `"s2"` is handed to the next invocation. -/
theorem c4_witness :
    (some (Json.str "s1") : Option Json) = sessAfter [evSysS1] none ∧
    run_plan decFix (fun _ => "ans") ([evAsstS2] :: [[evDone]]) "p" none none =
      (("p", (none : Option Json)) ::
         (run_plan decFix (fun _ => "ans") [[evDone]] "ans" (some (Json.str "s2")) none).1,
       (run_plan decFix (fun _ => "ans") [[evDone]] "ans" (some (Json.str "s2")) none).2) := by
  constructor
  · exact (c4_session_last_observed_wins.1 decFix [evSysS1] none none []
      (some (Json.str "s1"), none, []) rfl).1
  · exact c4_session_last_observed_wins.2 decFix (fun _ => "ans") [evAsstS2] [[evDone]]
      "p" none none (some (Json.str "s2")) none [qGood] rfl (by simp)

/-- Witness for C5: exit code 1 with stderr `"boom"` on an empty stream. -/
theorem c5_witness :
    (streamActions false decFix ([] : List String)).2 = false ∧
    (run_claude false decFix [] 1 "boom" =
      (streamActions false decFix []).1 ++ [Action.joinStderr, Action.waitProc] ++
        (if (1 : Int) ≠ 0 then
          [Action.raiseProcError 1 (procErrorMessage 1 "boom")] else []) ∧
     containsSub (toString (1 : Int)) (procErrorMessage 1 "boom") = true ∧
     containsSub "boom" (procErrorMessage 1 "boom") = true ∧
     ((1 : Int) = 0 → (run_claude false decFix [] 1 "boom").countP isProcError = 0)) :=
  ⟨rfl, c5_nonzero_exit_raises false decFix [] 1 "boom" rfl⟩

/-- Witness for C6: a clean result turn completes with `"done"`; an empty
turn fails with the "no result" condition. -/
theorem c6_witness :
    run_plan decFix (fun _ => "ans") [[evDone]] "p" none none =
      ([("p", none)], PlanResult.completed (Json.str "done")) ∧
    run_plan decFix (fun _ => "ans") [[]] "q" none none =
      ([("q", none)], PlanResult.noResult) :=
  ⟨c6_result_completes_empty_fails.1 decFix (fun _ => "ans") [evDone] "p"
      none (some (Json.str "done")) evDone (Json.str "done") rfl rfl rfl rfl,
   c6_result_completes_empty_fails.2 decFix (fun _ => "ans") "q"⟩

/-- Witness for C7: an assistant record with two text blocks around a
tool-use block. -/
theorem c7_witness :
    wfEventData dataHello = true ∧
    ClaudeEvent.text_content ⟨Json.str "assistant", dataHello⟩ =
      .ok (some "hello\nworld") :=
  ⟨rfl, (c7_text_content_join (Json.str "assistant") dataHello rfl).trans rfl⟩

/-- Witness for C8: the debug trace of a stream with a blank line and a
malformed line. -/
theorem c8_witness :
    (streamActions true decFix ["lineA", " ", "notjson", "lineB"]).2 = false ∧
    (streamActions true decFix ["lineA", " ", "notjson", "lineB"]).1 =
      (strippedNonblank ["lineA", " ", "notjson", "lineB"]).flatMap (fun s =>
        Action.logWrite s :: (match decFix s with
          | some (Json.obj fields) => [Action.yieldEvent (mkEvent fields)]
          | _ => [])) :=
  ⟨rfl, c8_debug_log_before_yield decFix ["lineA", " ", "notjson", "lineB"] rfl⟩

/-- Witness for C9: the line `"notype"` decodes to an object without a
`"type"` field. -/
theorem c9_witness :
    pyStrip "notype" = "notype" ∧
    streamActions false decFix ["notype"] =
      ([Action.yieldEvent ⟨Json.str "unknown", Json.obj [("a", Json.num 1)]⟩], false) :=
  ⟨rfl, c9_missing_type_yields_unknown decFix "notype" [("a", Json.num 1)] rfl
    (by decide) rfl rfl⟩

/-- Witness for C10: selecting option 2 by number, and joining a numeric
selection with a verbatim answer. -/
theorem c10_witness :
    answerQuestion qTwoOptions "2" =
      .ok (recordedAnswer
        [Json.obj [("label", Json.str "A")], Json.obj [("label", Json.str "B")]] "2") ∧
    prompt_user_for_answer [qTwoOptions, qTwoOptions] ["2", "xyz"] =
      .ok (String.intercalate "; " ["B", "xyz"]) :=
  ⟨c10_numeric_choice_or_verbatim.1 qTwoOptions
      [Json.obj [("label", Json.str "A")], Json.obj [("label", Json.str "B")]] "2"
      rfl rfl (by simp) (by decide),
   c10_numeric_choice_or_verbatim.2 [qTwoOptions, qTwoOptions] ["2", "xyz"] ["B", "xyz"] rfl⟩

end Spektacular

